import Mathlib

/-!
Verification of the Axe interpreter (Michael0x2a/axe-interpreter).

This file embeds the parts of the Python source relevant to the frozen
claims as Lean definitions and proves or refutes each claim.

* memory / variable layer: `axe/calculator.py` (`_init_memory`,
  `set_var_1`, `set_var_2`, `get_var_1`, `get_var_2`);
* rasterizer: `axe/calculator.py` (`_set_bit`, `_clear_bit`, `_flip_bit`,
  `_get_bit`, `_generic_rect`, `rect`, `clear_rect`, `pxl_get`,
  `shift_buffer_vertical`);
* expression ASTs and their runtime evaluation: `axe/parser.py`
  (`p_operation`, `Pointer`, `p_pointer_map_var`) and
  `axe/interpreter.py` (`_expression`, `_operation`, `_pointer`);
* flattener and driver: `axe/interpreter.py` (`Code`, `_while`, `_repeat`,
  `_for`, `_label`, `_goto`, `_disp`, `run`).
-/

namespace Axe

/-- Memory is the Python `array.array('H', ...)` of `_init_memory`, modelled
as a total function from slot index to stored value.  Bounds are enforced
separately by `writeMem` / `readMem` where a claim depends on them. -/
abbrev Mem := Nat → Nat

/-- Pointwise update of one memory slot (`self._memory[loc] = v`). -/
def memUpd (m : Mem) (loc v : Nat) : Mem :=
  fun a => if a = loc then v else m a

/-- `Calculator._init_memory`: `self._memory_size = 256 * 256 - 1`. -/
def memSize : Nat := 256 * 256 - 1

/-- The all-zero initial memory (`[0 for i in xrange(self._memory_size)]`). -/
def memZero : Mem := fun _ => 0

/-- A bounds-checked store.  A Python store `self._memory[loc] = v` on an
array of `memSize` elements raises `IndexError` when `loc >= memSize`;
the error value records the offending index. -/
def writeMem (m : Mem) (loc v : Nat) : Except Nat Mem :=
  if loc < memSize then .ok (memUpd m loc v) else .error loc

/-- A bounds-checked load (`self._memory[loc]`). -/
def readMem (m : Mem) (loc : Nat) : Except Nat Nat :=
  if loc < memSize then .ok (m loc) else .error loc

/-- `Calculator.set_var_1`:
`self._memory[location] = value % 256; return value`.
Note the source returns `value` itself, not `value % 256`. -/
def set_var_1 (m : Mem) (location value : Nat) : Except Nat (Mem × Nat) :=
  (writeMem m location (value % 256)).map (fun m1 => (m1, value))

/-- `Calculator.set_var_2`:
`value = value % 65536;`
`self._memory[location] = value % 256;`
`self._memory[location + 1] = value // 256; return value`. -/
def set_var_2 (m : Mem) (location value : Nat) : Except Nat (Mem × Nat) :=
  let v := value % 65536
  (writeMem m location (v % 256)).bind (fun m1 =>
    (writeMem m1 (location + 1) (v / 256)).map (fun m2 => (m2, v)))

/-- `Calculator.get_var_1`: `return self._memory[location]`. -/
def get_var_1 (m : Mem) (location : Nat) : Except Nat Nat :=
  readMem m location

/-- `Calculator.get_var_2`:
`return self._memory[location] + self._memory[location + 1] * 256`. -/
def get_var_2 (m : Mem) (location : Nat) : Except Nat Nat :=
  (readMem m location).bind (fun x =>
    (readMem m (location + 1)).map (fun y => x + y * 256))

/-!
## Rasterizer

The drawing layer operates through `_set_bit` / `_clear_bit` / `_flip_bit`
on the same memory.  It is modelled directly over `Mem`; the claims it
decides only touch slots far below `memSize`, where the Python array
accesses succeed.

`Calculator.__init__` defaults: `size=(96,64)`, `pixel_size=3`; the `size`
property setter multiplies by `pixel_size`, so `self.size[0] = 96 * 3`.
-/

/-- `pixel_size=3` (constructor default). -/
def pixel_size : Nat := 3

/-- `self.size[0]` after `_set_size` (`96 * pixel_size`). -/
def screen_w : Nat := 96 * pixel_size

/-- `Calculator._set_bit`: `self._memory[loc] = num | (1 << offset)`. -/
def set_bit (m : Mem) (loc off : Nat) : Mem :=
  memUpd m loc (m loc ||| (1 <<< off))

/-- `Calculator._clear_bit`: `self._memory[loc] = num & ~(1 << offset)`.
On a nonnegative Python int, `num & ~mask` is bitwise difference,
i.e. `Nat.ldiff`. -/
def clear_bit (m : Mem) (loc off : Nat) : Mem :=
  memUpd m loc (Nat.ldiff (m loc) (1 <<< off))

/-- `Calculator._flip_bit`: `self._memory[loc] = num ^ (1 << offset)`. -/
def flip_bit (m : Mem) (loc off : Nat) : Mem :=
  memUpd m loc ((m loc) ^^^ (1 <<< off))

/-- `Calculator._get_bit` / `_get_bit2`:
`(self._memory[loc] & (1 << index)) != 0`. -/
def get_bit (m : Mem) (loc index : Nat) : Bool :=
  (m loc &&& (1 <<< index)) != 0

/-- `Calculator._generic_rect`: for `j in xrange(y, y + h)`, for
`i in xrange(x, x + w)`, call
`callback(buf + i // 8 + j * self.size[0] // self.pixel_size // 8, i % 8)`. -/
def generic_rect (m : Mem) (buf x y w h : Nat) (callback : Mem → Nat → Nat → Mem) : Mem :=
  (List.range' y h).foldl (fun m1 j =>
    (List.range' x w).foldl (fun m2 i =>
      callback m2 (buf + i / 8 + j * screen_w / pixel_size / 8) (i % 8)) m1) m

/-- `Calculator.rect`: `_generic_rect` with `_set_bit`. -/
def rect (m : Mem) (buf x y w h : Nat) : Mem :=
  generic_rect m buf x y w h set_bit

/-- `Calculator.clear_rect`: `_generic_rect` with `_clear_bit`. -/
def clear_rect (m : Mem) (buf x y w h : Nat) : Mem :=
  generic_rect m buf x y w h clear_bit

/-- `Calculator.inverse_rect`: `_generic_rect` with `_flip_bit`. -/
def inverse_rect (m : Mem) (buf x y w h : Nat) : Mem :=
  generic_rect m buf x y w h flip_bit

/-- `Calculator.pxl_get`:
`location = buffer + (y * 96 + x) // 8; index = x % 8;`
`return int(self._get_bit(location, index))`. -/
def pxl_get (m : Mem) (buffer x y : Nat) : Nat :=
  if get_bit m (buffer + (y * 96 + x) / 8) (x % 8) then 1 else 0

/-- One iteration of the slice assignment in `shift_buffer_vertical`:
`old_slice = self._memory[src : src + 96];`
`self._memory[dst : dst + 96] = old_slice`
(source and destination ranges are adjacent and disjoint, so capturing
the slice before assigning is the pointwise copy below). -/
def copyChunk (m : Mem) (src dst : Nat) : Mem :=
  fun a => if dst ≤ a ∧ a < dst + 96 then m (src + (a - dst)) else m a

/-- `Calculator.shift_buffer_vertical`:
direction 1 (down): `for i in xrange(0, 63): current = 63 - i;`
copy `self._memory[buf + current * 96 : buf + (current+1) * 96]` to
`[buf + (current+1) * 96 : buf + (current+2) * 96]`.
direction -1 (up): `for current in xrange(1, 64):` copy
`[buf + current * 96 : buf + (current+1) * 96]` to
`[buf + (current-1) * 96 : buf + current * 96]`.
Note the source moves 96-byte chunks even though one pixel row of the
96x64 one-bit framebuffer is 12 bytes. -/
def shift_buffer_vertical (m : Mem) (buf : Nat) (direction : Int) : Mem :=
  if direction = 1 then
    (List.range 63).foldl (fun m1 i =>
      let current := 63 - i
      copyChunk m1 (buf + current * 96) (buf + (current + 1) * 96)) m
  else if direction = -1 then
    (List.range' 1 63).foldl (fun m1 current =>
      copyChunk m1 (buf + current * 96) (buf + (current - 1) * 96)) m
  else m

/-!
## Expression ASTs and their runtime evaluation

`axe/parser.py` builds `Expression` / `Operation` / `Pointer` nodes; the
interpreter (`_expression`, `_operation`, `_pointer`) turns them into
thunks evaluated against the calculator.  Values are Python ints,
modelled as `Int` (Python `//` and `%` are floor division and
floor modulus, `Int.fdiv` / `Int.fmod`).
-/

/-- The operator names accepted by `p_combination_operator`; each is
looked up in Python's `operator` module (`getattr(operator, ast.op)`). -/
inductive Op where
  | add | sub | mul | div | mod
  | lt | le | eq | ne | gt | ge
deriving DecidableEq, Repr

/-- Expression nodes as produced by the parser.
`lit n` is `Expression(n)` with an integer value; `ptr size addr` is a
`Pointer` (its `address` is itself an expression); `operation op args`
is `Operation(op, *args)`. -/
inductive Expr where
  | lit (n : Int)
  | ptr (size : Nat) (addr : Expr)
  | operation (op : Op) (args : List Expr)

/-- Application of one operator at run time (`getattr(operator, op)`):
arithmetic on Python ints; comparisons return Python bools, which behave
as the ints 0 and 1 in any later arithmetic. -/
def applyOp (op : Op) (a b : Int) : Int :=
  match op with
  | .add => a + b
  | .sub => a - b
  | .mul => a * b
  | .div => Int.fdiv a b
  | .mod => Int.fmod a b
  | .lt => if a < b then 1 else 0
  | .le => if a ≤ b then 1 else 0
  | .eq => if a = b then 1 else 0
  | .ne => if a = b then 0 else 1
  | .gt => if b < a then 1 else 0
  | .ge => if b ≤ a then 1 else 0

/-- Unchecked little-endian load used by the flattened thunks
(`get_var_1` / `get_var_2` dispatched on the pointer's `size`; the
claims' addresses are all far inside the memory array). -/
def getV (size : Nat) (m : Mem) (location : Nat) : Nat :=
  if size = 1 then m location else m location + m (location + 1) * 256

/-- Unchecked store used by the flattened steps (`set_var_1` /
`set_var_2` dispatched on `size`).  Mirrors the source including the
unreduced return value of `set_var_1`: the returned int is the value of
the assignment expression. -/
def setV (size : Nat) (m : Mem) (location : Nat) (value : Int) : Mem × Int :=
  if size = 1 then
    (memUpd m location (Int.fmod value 256).toNat, value)
  else
    let v := Int.fmod value 65536
    (memUpd (memUpd m location (v.toNat % 256)) (location + 1) (v.toNat / 256), v)

mutual

/-- Runtime evaluation of an expression thunk.
`_expression`: an integer literal evaluates to itself.
`_pointer`: evaluate the address, then `get_var_1` / `get_var_2`.
`_operation`: evaluate `args[0]` as the seed, then left-fold the
operator over the remaining arguments.  (The literal-collapsing
preprocessing in `_operation` tests `type(arg) == int`, which is never
true for parser-produced arguments - they are `Expression` nodes - so on
every AST reachable from the parser it leaves `args` unchanged.) -/
def evalExpr (m : Mem) : Expr → Int
  | .lit n => n
  | .ptr size addr => (getV size m (evalExpr m addr).toNat : Int)
  | .operation op args =>
    match args with
    | [] => 0
    | a :: rest => evalFold m op (evalExpr m a) rest

/-- The left fold inside `l_operation`:
`for l_expression in subargs: s_seed = operation(s_seed, term)`. -/
def evalFold (m : Mem) (op : Op) (seed : Int) : List Expr → Int
  | [] => seed
  | e :: rest => evalFold m op (applyOp op seed (evalExpr m e)) rest

end

/-- `p_operation`: the production `expression : expression operator factor`
builds `Operation(p[2], p[1], p[3])` - a binary node, with no folding of
integer literals. -/
def p_operation (e : Expr) (op : Op) (f : Expr) : Expr :=
  .operation op [e, f]

/-- Repeated application of `p_operation` along a chain
`e op1 f1 op2 f2 ...`.  The grammar's only expression-combining
production is the left-recursive `expression : expression operator
factor` (there is no precedence declaration in the source), so an
operator chain necessarily parses by reducing the leftmost pair first;
this function is that derivation. -/
def parseExprChain (e : Expr) : List (Op × Expr) → Expr
  | [] => e
  | (op, f) :: rest => parseExprChain (p_operation e op f) rest

/-- `Pointer.constants['AZ_VARS']`. -/
def azVars : Int := 35254

/-- `Pointer.__init__` with a non-`START` named constant:
`address = Operation('add', Expression(constants[const]), Expression(offset))`. -/
def mkConstPointerAddr (base offset : Int) : Expr :=
  .operation .add [.lit base, .lit offset]

/-- `p_pointer_map_var`: variable `A`..`Z` number `ord` becomes
`Pointer(ord * 2, 2, 'AZ_VARS')`; this is its address expression. -/
def varAddr (ord : Nat) : Expr :=
  mkConstPointerAddr azVars (ord * 2)

/-- The width-2 pointer expression for variable number `ord`
(`A` is 0, `B` is 1, ...). -/
def varExpr (ord : Nat) : Expr :=
  .ptr 2 (varAddr ord)

/-!
## Flattener and driver

`Interpreter.flatten` compiles the AST into a `Code` object: an ordered
list of steps plus a label map.  The steps are Python closures; each
closure shape created by the flattener is one constructor of `Step`
below, carrying exactly the values the closure captures.
-/

/-- The step closures appended to `Code.code` by the flattener.
`placeholder` is the string `'PLACEHOLDER'` before patching. -/
inductive Step where
  | placeholder
  | checkWhile (cond : Expr) (target : Nat)
  | checkRepeat (cond : Expr) (target : Nat)
  | jumpStep (target : Nat)
  | initFor (addr : Expr) (start : Expr) (size : Nat)
  | checkFor (addr : Expr) (endE : Expr) (size target : Nat)
  | updateFor (addr : Expr) (inc : Expr) (size check : Nat)
  | gotoNamed (name : String)
  | labelStep
  | dispStep (e : Expr)

/-- The flatten-time view of `Code`: the step list (`self.code`) and the
label map (`self.labels`, a dict whose later insertions win - modelled
by prepending and looking up front-first). -/
structure Code where
  steps : List Step
  labels : List (String × Nat)

/-- The empty `Code()` object. -/
def Code.empty : Code := ⟨[], []⟩

/-- `Code.append`: appends and returns the new code; the source returns
the index of the appended step, which is `steps.length` before the
append (`counter` is `length - 1`). -/
def Code.append (c : Code) (s : Step) : Code :=
  ⟨c.steps ++ [s], c.labels⟩

/-- `Code.replace(index, step)`: patch a placeholder. -/
def Code.replace (c : Code) (i : Nat) (s : Step) : Code :=
  ⟨c.steps.set i s, c.labels⟩

/-- `Code.add_label(name, line)`. -/
def Code.addLabel (c : Code) (n : String) (i : Nat) : Code :=
  ⟨c.steps, (n, i) :: c.labels⟩

/-- The statements whose flattening the claims exercise.  `lineDisp` is a
`Line` holding `Disp expr` (the only body statement the claims need: it
is observable).  Loop bodies are blocks, i.e. statement lists. -/
inductive Stmt where
  | lineDisp (e : Expr)
  | whileLoop (cond : Expr) (body : List Stmt)
  | repeatLoop (cond : Expr) (body : List Stmt)
  | forLoop (addr : Expr) (size : Nat) (start endE inc : Expr) (body : List Stmt)
  | lbl (name : String)
  | goto (name : String)

mutual

/-- `Interpreter` flattening, one method per node kind:

* `_line` + `_disp`: append the disp closure.
* `_while`: append a placeholder at `s_start`, flatten the body, append
  the jump back to `s_start` at `s_end`, then patch `s_start` with
  "if cond() == 0 jump to s_end + 1".
* `_repeat`: identical except the patched check jumps when the condition
  is nonzero.
* `_for`: append the init store; placeholder at `s_check`; body; append
  the update step (increment the variable and jump to `s_check`); append
  the unconditional jump to `s_check` at `s_exit`; patch `s_check` with
  "if pointer() > end() jump to s_exit + 1".
* `_label` (via its `Line`): `add_label(name, counter + 1)` - which is
  the index the label's own no-op step then occupies - and append that
  step.
* `_goto` (via its `Line`): append a step that looks the name up in the
  label map at execution time. -/
def flattenStmt (c : Code) : Stmt → Code
  | .lineDisp e => c.append (.dispStep e)
  | .whileLoop cond body =>
    let s_start := c.steps.length
    let c1 := c.append .placeholder
    let c2 := flattenList c1 body
    let s_end := c2.steps.length
    let c3 := c2.append (.jumpStep s_start)
    c3.replace s_start (.checkWhile cond (s_end + 1))
  | .repeatLoop cond body =>
    let s_start := c.steps.length
    let c1 := c.append .placeholder
    let c2 := flattenList c1 body
    let s_end := c2.steps.length
    let c3 := c2.append (.jumpStep s_start)
    c3.replace s_start (.checkRepeat cond (s_end + 1))
  | .forLoop addr size start endE inc body =>
    let c1 := c.append (.initFor addr start size)
    let s_check := c1.steps.length
    let c2 := c1.append .placeholder
    let c3 := flattenList c2 body
    let c4 := c3.append (.updateFor addr inc size s_check)
    let s_exit := c4.steps.length
    let c5 := c4.append (.jumpStep s_check)
    c5.replace s_check (.checkFor addr endE size (s_exit + 1))
  | .lbl name =>
    (c.addLabel name c.steps.length).append .labelStep
  | .goto name =>
    c.append (.gotoNamed name)

/-- `_program` / `_block`: flatten the children in order. -/
def flattenList (c : Code) : List Stmt → Code
  | [] => c
  | s :: rest => flattenList (flattenStmt c s) rest

end

/-- Flatten a whole program from the empty `Code()` (as `execute` does). -/
def flattenProgram (p : List Stmt) : Code :=
  flattenList Code.empty p

/-- Errors a step can raise.  `missingLabel` is `MissingLabelException`
(it propagates out of `run` and aborts the current run);
`typeErr` models calling an unpatched `'PLACEHOLDER'` string, a
`TypeError`, which `run` catches, silently ending execution. -/
inductive RunErr where
  | missingLabel
  | typeErr
deriving DecidableEq, Repr

/-- Execution state: the calculator memory, `Code.next_token`, the
sequence of values printed by `Disp` steps so far (observing body
executions), and a raised error if any. -/
structure ExecSt where
  mem : Mem
  next_token : Nat
  trace : List Int
  error : Option RunErr

/-- The initial state of a run: zeroed memory, `next_token = 0`. -/
def ExecSt.init : ExecSt := ⟨memZero, 0, [], none⟩

/-- `Code.jump`: overwrite `next_token`. -/
def ExecSt.jump (s : ExecSt) (t : Nat) : ExecSt :=
  { s with next_token := t }

/-- Execute one step closure (called after `next()` has already
incremented `next_token`):

* `checkWhile`: `l_check_while` - if the condition thunk returns 0, jump
  past the loop.
* `checkRepeat`: `l_check_repeat` - if the condition thunk returns
  nonzero (truthy), jump past the loop.
* `jumpStep`: `l_jump_while` / `l_jump_repeat` / `l_jump_for` /
  `l_jump_ifelse`.
* `initFor`: `l_init_for` - store the start value through the pointer.
* `checkFor`: `l_condition_for` - if the loop variable exceeds the end
  thunk's value, jump past the loop (end inclusive).
* `updateFor`: `l_update_for` - add the increment to the loop variable,
  store it, and jump to the check.  (The source also splices in a
  specialized copy of itself via `internal_replace`; the replacement has
  the same observable behavior, so it is not modelled.)
* `gotoNamed`: `l_goto1` - look the name up in the label map now, at
  execution time; `get_label` raises `MissingLabelException` when the
  name is absent.
* `labelStep`: the no-op lambda returned by `_label`.
* `dispStep`: `l_disp` - evaluate and print the value.
* `placeholder`: calling the string raises `TypeError`. -/
def execStep (labels : List (String × Nat)) (s : ExecSt) : Step → ExecSt
  | .placeholder => { s with error := some .typeErr }
  | .checkWhile cond target =>
    if evalExpr s.mem cond = 0 then s.jump target else s
  | .checkRepeat cond target =>
    if evalExpr s.mem cond = 0 then s else s.jump target
  | .jumpStep target => s.jump target
  | .initFor addr start size =>
    { s with mem := (setV size s.mem (evalExpr s.mem addr).toNat (evalExpr s.mem start)).1 }
  | .checkFor addr endE size target =>
    let s_loop : Int := getV size s.mem (evalExpr s.mem addr).toNat
    if s_loop > evalExpr s.mem endE then s.jump target else s
  | .updateFor addr inc size check =>
    let a := (evalExpr s.mem addr).toNat
    let v : Int := (getV size s.mem a : Int) + evalExpr s.mem inc
    { s with mem := (setV size s.mem a v).1, next_token := check }
  | .gotoNamed name =>
    match labels.lookup name with
    | none => { s with error := some .missingLabel }
    | some t => s.jump t
  | .labelStep => s
  | .dispStep e => { s with trace := s.trace ++ [evalExpr s.mem e] }

/-- `Interpreter.run`: fetch the step at `next_token`, increment
`next_token`, invoke the step; stop when the fetch runs off the end of
the list (or an error was raised).  `fuel` bounds the number of ticks so
the driver is a total function; a state whose `next_token` is past the
end is unchanged by further fuel. -/
def run (steps : List Step) (labels : List (String × Nat)) (fuel : Nat) (s : ExecSt) : ExecSt :=
  match fuel with
  | 0 => s
  | fuel + 1 =>
    if s.error.isSome then s
    else
      match steps.get? s.next_token with
      | none => s
      | some st => run steps labels fuel (execStep labels { s with next_token := s.next_token + 1 } st)

/-- Flatten a program and run it from the initial state, as
`Interpreter.execute` does. -/
def runProgram (p : List Stmt) (fuel : Nat) : ExecSt :=
  run (flattenProgram p).steps (flattenProgram p).labels fuel ExecSt.init

/-!
## Concrete programs named by the claims
-/

/-- `While 0 : Disp 7 : End`. -/
def whileZeroProg : List Stmt :=
  [.whileLoop (.lit 0) [.lineDisp (.lit 7)]]

/-- `Repeat 1 : Disp 7 : End`. -/
def repeatOneProg : List Stmt :=
  [.repeatLoop (.lit 1) [.lineDisp (.lit 7)]]

/-- `For(A,0,3) : Disp A : End` - the pointer is variable `A`
(`Pointer(0, 2, 'AZ_VARS')`), the increment is the implicit
`Expression(1)` of `p_node_full_for`, and the body observes `A`. -/
def forProg : List Stmt :=
  [.forLoop (varAddr 0) 2 (.lit 0) (.lit 3) (.lit 1) [.lineDisp (varExpr 0)]]

/-- `Goto X : Disp 1 : Lbl X : Disp 2` - a forward goto: when the
`Goto` is flattened, label `X` is not in the label map yet. -/
def forwardGotoProg : List Stmt :=
  [.goto "X", .lineDisp (.lit 1), .lbl "X", .lineDisp (.lit 2)]

/-- `Goto NOPE : Disp 1` - a goto to a label that never exists. -/
def missingGotoProg : List Stmt :=
  [.goto "NOPE", .lineDisp (.lit 1)]

/-- The AST `1+2+3+X+4+5` as the grammar derives it: the left-recursive
`expression : expression operator factor` production applied five times. -/
def c4Parsed : Expr :=
  parseExprChain (.lit 1)
    [(.add, .lit 2), (.add, .lit 3), (.add, varExpr 23), (.add, .lit 4), (.add, .lit 5)]

/-- The folded AST `Operation(add, 6, x, 9)` the claim says the parser
produces. -/
def c4Folded : Expr :=
  .operation .add [.lit 6, varExpr 23, .lit 9]

/-- The AST `1+2*3` as the grammar derives it. -/
def c8Parsed : Expr :=
  parseExprChain (.lit 1) [(.add, .lit 2), (.mul, .lit 3)]

/-- A memory whose only set framebuffer bit is pixel (0,0) of the buffer
at address 0 (bit 0 of byte 0). -/
def memRow0 : Mem := fun a => if a = 0 then 1 else 0

/-- A memory whose only set framebuffer bit is pixel (0,8) of the buffer
at address 0 (bit 0 of byte 96, since a pixel row is 12 bytes). -/
def memRow8 : Mem := fun a => if a = 96 then 1 else 0

/-!
## Theorems

Shared helper lemmas first, then one theorem (plus witness or
counterexample where required) per claim.
-/

/-- A state whose `next_token` is past the end of the step list is left
unchanged by any amount of fuel (the driver's `next()` returns `None`
and the run ends). -/
theorem run_halt (steps : List Step) (labels : List (String × Nat)) (fuel : Nat)
    (s : ExecSt) (h : steps.get? s.next_token = none) :
    run steps labels fuel s = s := by
  cases fuel with
  | zero => rfl
  | succ n =>
    unfold run
    rw [h]
    split
    · rfl
    · rfl

/-- A state with a raised error is left unchanged by any amount of fuel
(the exception has propagated out of the driver loop). -/
theorem run_error (steps : List Step) (labels : List (String × Nat)) (fuel : Nat)
    (s : ExecSt) (h : s.error.isSome = true) :
    run steps labels fuel s = s := by
  cases fuel with
  | zero => rfl
  | succ n =>
    unfold run
    rw [h]
    rfl

/-- One driver tick, as an equation. -/
theorem run_succ (steps : List Step) (labels : List (String × Nat)) (fuel : Nat)
    (s : ExecSt) :
    run steps labels (fuel + 1) s =
      if s.error.isSome then s
      else
        match steps.get? s.next_token with
        | none => s
        | some st => run steps labels fuel (execStep labels { s with next_token := s.next_token + 1 } st) :=
  rfl

/-- Fuel splits: running `a + b` ticks is running `a` ticks and then `b`
more. -/
theorem run_add (steps : List Step) (labels : List (String × Nat)) (a b : Nat)
    (s : ExecSt) :
    run steps labels (a + b) s = run steps labels b (run steps labels a s) := by
  induction a generalizing s with
  | zero =>
    rw [Nat.zero_add]
    rfl
  | succ n ih =>
    rw [Nat.succ_add]
    cases herr : s.error.isSome with
    | true =>
      rw [run_error steps labels ((n + b) + 1) s herr,
          run_error steps labels (n + 1) s herr,
          run_error steps labels b s herr]
    | false =>
      cases hg : steps.get? s.next_token with
      | none =>
        rw [run_halt steps labels ((n + b) + 1) s hg,
            run_halt steps labels (n + 1) s hg,
            run_halt steps labels b s hg]
      | some st =>
        rw [run_succ steps labels (n + b) s, run_succ steps labels n s, herr, hg]
        simp only [Bool.false_eq_true, if_false]
        exact ih _

/-- C1 (counterexample): at address 0 and value 300, `set_var_1` returns
300 - not `300 mod 256 = 44` - while `get_var_1` reads back 44, so the
returned value is neither `v mod 256` nor what is read back. -/
theorem c1_counterexample :
    (set_var_1 memZero 0 300).map (fun p => p.2) = .ok 300 ∧
    (set_var_1 memZero 0 300).bind (fun p => get_var_1 p.1 0) = .ok 44 ∧
    (300 : Nat) % 256 = 44 ∧ (300 : Nat) ≠ 44 := by
  refine ⟨rfl, rfl, rfl, ?_⟩
  decide

/-- C1 (amended): for every address `a < 65535` and value `v`,
`set_var_1(a, v)` stores `v mod 256` at slot `a` but returns `v` itself,
unreduced; `get_var_1(a)` subsequently reads back `v mod 256`, so the
returned value equals the readback only when `v mod 256 = v`. -/
theorem c1_amended (a v : Nat) (m : Mem) (h : a < memSize) :
    set_var_1 m a v = .ok (memUpd m a (v % 256), v) ∧
    (set_var_1 m a v).bind (fun p => get_var_1 p.1 a) = .ok (v % 256) := by
  constructor
  · simp [set_var_1, writeMem, h, Except.map]
  · simp [set_var_1, writeMem, h, get_var_1, readMem, memUpd, Except.map, Except.bind]

/-- C1 witness: the amended theorem applied at `a = 5`, `v = 300`. -/
theorem c1_witness :
    set_var_1 memZero 5 300 = .ok (memUpd memZero 5 (300 % 256), 300) ∧
    (set_var_1 memZero 5 300).bind (fun p => get_var_1 p.1 5) = .ok (300 % 256) :=
  c1_amended 5 300 memZero (by decide)

/-- C5: for every address `a ∈ [0, 65534)` and value `v ∈ [0, 65535]`,
`set_var_2(a, v)` succeeds, returns `v`, and `get_var_2(a)` then reads
back exactly `v` (low byte at `a`, high byte at `a + 1`, recomposed
little-endian). -/
theorem c5_roundtrip (a v : Nat) (m : Mem) (ha : a < 65534) (hv : v ≤ 65535) :
    set_var_2 m a v = .ok (memUpd (memUpd m a (v % 256)) (a + 1) (v / 256), v) ∧
    get_var_2 (memUpd (memUpd m a (v % 256)) (a + 1) (v / 256)) a = .ok v := by
  have hsize : memSize = 65535 := by decide
  have h1 : a < memSize := by omega
  have h2 : a + 1 < memSize := by omega
  have hmod : v % 65536 = v := Nat.mod_eq_of_lt (by omega)
  constructor
  · simp [set_var_2, writeMem, h1, h2, hmod, Except.map, Except.bind]
  · have hne : a ≠ a + 1 := by omega
    simp [get_var_2, readMem, h1, h2, memUpd, hne, Except.map, Except.bind]
    omega

/-- C5 witness: the round trip at `a = 3000`, `v = 1337` (the spec's S3
scenario). -/
theorem c5_witness :
    set_var_2 memZero 3000 1337 =
      .ok (memUpd (memUpd memZero 3000 (1337 % 256)) (3000 + 1) (1337 / 256), 1337) ∧
    get_var_2 (memUpd (memUpd memZero 3000 (1337 % 256)) (3000 + 1) (1337 / 256)) 3000 =
      .ok 1337 :=
  c5_roundtrip 3000 1337 memZero (by decide) (by decide)

/-- C10: memory has exactly `256 * 256 - 1 = 65535` slots (valid indices
0 through 65534); `set_var_2(65534, v)` always fails with an
out-of-range store at index 65535 - one slot past the end, where the
high byte would go - while `set_var_2(a, v)` with `a ≤ 65533` always
succeeds. -/
theorem c10_bounds :
    memSize = 65535 ∧
    (∀ (m : Mem) (v : Nat), set_var_2 m 65534 v = .error 65535) ∧
    (∀ (m : Mem) (v a : Nat), a ≤ 65533 →
      set_var_2 m a v =
        .ok (memUpd (memUpd m a (v % 65536 % 256)) (a + 1) (v % 65536 / 256), v % 65536)) := by
  refine ⟨by decide, ?_, ?_⟩
  · intro m v
    simp [set_var_2, writeMem, memSize, Except.map, Except.bind]
  · intro m v a ha
    have h1 : a < memSize := by simp [memSize]; omega
    have h2 : a + 1 < memSize := by simp [memSize]; omega
    simp [set_var_2, writeMem, h1, h2, Except.map, Except.bind]

/-- C10 witness: the bounds behavior at concrete inputs. -/
theorem c10_witness :
    set_var_2 memZero 65534 7 = .error 65535 ∧
    set_var_2 memZero 100 7 =
      .ok (memUpd (memUpd memZero 100 (7 % 65536 % 256)) (100 + 1) (7 % 65536 / 256), 7 % 65536) :=
  ⟨c10_bounds.2.1 memZero 7, c10_bounds.2.2 memZero 7 100 (by decide)⟩

/-- C2 (counterexample): the flattened `Repeat 1 : Disp 7 : End` runs to
completion (the instruction pointer ends past the 3-step program) having
executed the body zero times - the trace is empty, not the `[7]` that
exactly one body execution would print. -/
theorem c2_counterexample :
    (runProgram repeatOneProg 20).next_token = (flattenProgram repeatOneProg).steps.length ∧
    (runProgram repeatOneProg 20).trace = [] ∧
    (runProgram repeatOneProg 20).trace ≠ [7] := by
  refine ⟨rfl, rfl, ?_⟩
  decide

/-- C2 (amended): a flattened `While 0 ... End` never enters the loop
body, and a flattened `Repeat 1 ... End` executes the loop body zero
times: the patched check runs before the body on every iteration
including the first, and jumps past the loop when the condition is
truthy (the inverse of While). -/
theorem c2_amended : ∀ fuel : Nat,
    (runProgram whileZeroProg fuel).trace = [] ∧
    (runProgram repeatOneProg fuel).trace = [] := by
  intro fuel
  cases fuel with
  | zero => exact ⟨rfl, rfl⟩
  | succ n =>
    have e1 : n + 1 = 1 + n := by omega
    constructor
    · show (run (flattenProgram whileZeroProg).steps (flattenProgram whileZeroProg).labels
        (n + 1) ExecSt.init).trace = []
      rw [e1, run_add]
      have h1 : run (flattenProgram whileZeroProg).steps (flattenProgram whileZeroProg).labels
          1 ExecSt.init = ⟨memZero, 3, [], none⟩ := rfl
      rw [h1, run_halt (flattenProgram whileZeroProg).steps (flattenProgram whileZeroProg).labels
        n ⟨memZero, 3, [], none⟩ rfl]
    · show (run (flattenProgram repeatOneProg).steps (flattenProgram repeatOneProg).labels
        (n + 1) ExecSt.init).trace = []
      rw [e1, run_add]
      have h1 : run (flattenProgram repeatOneProg).steps (flattenProgram repeatOneProg).labels
          1 ExecSt.init = ⟨memZero, 3, [], none⟩ := rfl
      rw [h1, run_halt (flattenProgram repeatOneProg).steps (flattenProgram repeatOneProg).labels
        n ⟨memZero, 3, [], none⟩ rfl]

/-- C7: executing the flattened `For(A,0,3) : Disp A : End` runs to
completion, executes the body exactly 4 times - observing
`A = 0, 1, 2, 3` in order - and leaves the 2-byte variable `A` (at
`AZ_VARS = 35254`) equal to 4. -/
theorem c7_for_semantics (fuel : Nat) (h : 20 ≤ fuel) :
    (runProgram forProg fuel).trace = [0, 1, 2, 3] ∧
    getV 2 (runProgram forProg fuel).mem 35254 = 4 ∧
    (runProgram forProg fuel).next_token = (flattenProgram forProg).steps.length := by
  obtain ⟨k, rfl⟩ : ∃ k, fuel = 20 + k := ⟨fuel - 20, by omega⟩
  have hsplit : runProgram forProg (20 + k) = runProgram forProg 20 := by
    show run (flattenProgram forProg).steps (flattenProgram forProg).labels (20 + k) ExecSt.init =
      run (flattenProgram forProg).steps (flattenProgram forProg).labels 20 ExecSt.init
    rw [run_add]
    exact run_halt (flattenProgram forProg).steps (flattenProgram forProg).labels k
      (run (flattenProgram forProg).steps (flattenProgram forProg).labels 20 ExecSt.init) rfl
  rw [hsplit]
  exact ⟨rfl, rfl, rfl⟩

/-- C7 witness: the theorem applied at fuel 20. -/
theorem c7_witness :
    (runProgram forProg 20).trace = [0, 1, 2, 3] ∧
    getV 2 (runProgram forProg 20).mem 35254 = 4 ∧
    (runProgram forProg 20).next_token = (flattenProgram forProg).steps.length :=
  c7_for_semantics 20 (by decide)

/-- C9: flattening `Goto X : Disp 1 : Lbl X : Disp 2` records label `X`
at index 2 only after the `Goto` step has been created, yet the run
succeeds: the goto step stores only the name and looks it up at
execution time, so the run jumps over `Disp 1` straight to the label and
prints only the `2`.  Running `Goto NOPE : Disp 1` raises a
`MissingLabel` error, and the run aborts without executing the following
step. -/
theorem c9_goto_resolution :
    (flattenProgram forwardGotoProg).labels.lookup "X" = some 2 ∧
    (flattenProgram forwardGotoProg).steps.get? 0 = some (.gotoNamed "X") ∧
    (runProgram forwardGotoProg 10).trace = [2] ∧
    (runProgram forwardGotoProg 10).error = none ∧
    (runProgram forwardGotoProg 10).next_token = (flattenProgram forwardGotoProg).steps.length ∧
    (runProgram missingGotoProg 10).error = some .missingLabel ∧
    (runProgram missingGotoProg 10).trace = [] :=
  ⟨rfl, rfl, rfl, rfl, rfl, rfl, rfl⟩

/-- C4 (counterexample): the parse of `1+2+3+X+4+5` is not
`Operation(add, 6, X, 9)` - the grammar builds a binary node at each
operator, and no literal folding is ever applied to it. -/
theorem c4_counterexample : c4Parsed ≠ c4Folded := by
  simp [c4Parsed, c4Folded, parseExprChain, p_operation]

/-- C4 (amended): the parser does not fold literal chains: `1+2+3+X+4+5`
parses as the left-nested binary tree
`Operation(add, Operation(add, Operation(add, Operation(add,
Operation(add, 1, 2), 3), X), 4), 5)` (the interpreter's
literal-collapsing preprocessing never fires because operation arguments
are `Expression` nodes, not raw ints); folding would indeed cause no
semantic change - at run time the nested tree computes the same value as
the folded `Operation(add, 6, X, 9)` would, in every memory state. -/
theorem c4_amended :
    c4Parsed =
      .operation .add
        [.operation .add
          [.operation .add
            [.operation .add
              [.operation .add [.lit 1, .lit 2], .lit 3], varExpr 23], .lit 4], .lit 5] ∧
    ∀ m : Mem, evalExpr m c4Parsed = evalExpr m c4Folded := by
  constructor
  · rfl
  · intro m
    simp [c4Parsed, c4Folded, parseExprChain, p_operation, evalExpr, evalFold, applyOp]
    omega

/-- C8: the grammar has no operator precedence - `1+2*3` parses as the
left-associated `Operation(mul, Operation(add, 1, 2), 3)` and evaluates
to `(1+2)*3 = 9` in every memory state. -/
theorem c8_flat_precedence :
    c8Parsed = .operation .mul [.operation .add [.lit 1, .lit 2], .lit 3] ∧
    ∀ m : Mem, evalExpr m c8Parsed = 9 :=
  ⟨rfl, fun _ => rfl⟩

/-- `_get_bit2` tests exactly the `index`-th bit of the byte value. -/
theorem get_bit_eq_testBit (m : Mem) (loc idx : Nat) :
    get_bit m loc idx = (m loc).testBit idx := by
  cases h : (m loc).testBit idx with
  | true =>
    simp [get_bit, Nat.one_shiftLeft, Nat.and_two_pow, h]
  | false =>
    simp [get_bit, Nat.one_shiftLeft, Nat.and_two_pow, h]

/-- `_set_bit` turns its target bit on. -/
theorem set_bit_get_self (m : Mem) (loc off : Nat) :
    get_bit (set_bit m loc off) loc off = true := by
  simp [get_bit_eq_testBit, set_bit, memUpd, Nat.one_shiftLeft, Nat.testBit_lor,
    Nat.testBit_two_pow_self]

/-- `_set_bit` never turns a bit off: any bit that was on stays on. -/
theorem set_bit_pres (m : Mem) (l2 o2 l i : Nat) (h : get_bit m l i = true) :
    get_bit (set_bit m l2 o2) l i = true := by
  simp only [get_bit_eq_testBit] at h ⊢
  simp only [set_bit, memUpd]
  by_cases hl : l = l2
  · subst hl
    simp [Nat.testBit_lor, h]
  · simp [hl, h]

/-- `_clear_bit` turns its target bit off. -/
theorem clear_bit_get_self (m : Mem) (loc off : Nat) :
    get_bit (clear_bit m loc off) loc off = false := by
  simp [get_bit_eq_testBit, clear_bit, memUpd, Nat.one_shiftLeft, Nat.testBit_ldiff,
    Nat.testBit_two_pow_self]

/-- A predicate preserved by every callback application is preserved by
the whole row/column loop. -/
theorem foldl_range'_pres {α : Type} (f : α → Nat → α) (P : α → Prop)
    (hp : ∀ a k, P a → P (f a k)) :
    ∀ (n s : Nat) (a : α), P a → P ((List.range' s n).foldl f a) := by
  intro n
  induction n with
  | zero => intro s a h; exact h
  | succ n ih =>
    intro s a h
    rw [List.range'_succ]
    exact ih (s + 1) (f a s) (hp a s h)

/-- A predicate established by the callback at some index `k` of the
loop range, and preserved by every callback application, holds after the
loop. -/
theorem foldl_range'_estab {α : Type} (f : α → Nat → α) (P : α → Prop)
    (hp : ∀ a k, P a → P (f a k)) (k : Nat) (hk : ∀ a, P (f a k)) :
    ∀ (n s : Nat) (a : α), s ≤ k → k < s + n → P ((List.range' s n).foldl f a) := by
  intro n
  induction n with
  | zero => intro s a h1 h2; omega
  | succ n ih =>
    intro s a h1 h2
    rw [List.range'_succ]
    by_cases hks : k = s
    · subst hks
      exact foldl_range'_pres f P hp n (k + 1) (f a k) (hk a)
    · exact ih (s + 1) (f a s) (by omega) (by omega)

/-- The row stride computed by `_generic_rect`
(`j * self.size[0] // self.pixel_size // 8`) is 12 bytes per pixel row. -/
theorem yt_eq (j : Nat) : j * screen_w / pixel_size / 8 = j * 12 := by
  simp only [screen_w, pixel_size]
  omega

/-- `pxl_get`'s byte address agrees with `_generic_rect`'s byte address
for the same pixel. -/
theorem pxl_loc_eq (buf x y : Nat) :
    buf + (y * 96 + x) / 8 = buf + x / 8 + y * screen_w / pixel_size / 8 := by
  simp only [screen_w, pixel_size]
  omega

/-- C6: `rect(buf, (x,y), (w,h))` sets, for every pixel `(i,j)` of the
rectangle, bit `i mod 8` of the byte at `buf + i/8 + j*12`; consequently
a 1x1 `rect` makes `pxl_get` read 1 at that pixel and a 1x1 `clear_rect`
makes it read 0. -/
theorem c6_rect_pixels :
    (∀ (m : Mem) (buf x y w h i j : Nat), x ≤ i → i < x + w → y ≤ j → j < y + h →
      get_bit (rect m buf x y w h) (buf + i / 8 + j * 12) (i % 8) = true) ∧
    (∀ (m : Mem) (buf x y : Nat), x < 96 → y < 64 →
      pxl_get (rect m buf x y 1 1) buf x y = 1 ∧
      pxl_get (clear_rect m buf x y 1 1) buf x y = 0) := by
  constructor
  · intro m buf x y w h i j hxi hiw hyj hjh
    show get_bit
      ((List.range' y h).foldl (fun m1 jj =>
        (List.range' x w).foldl (fun m2 ii =>
          set_bit m2 (buf + ii / 8 + jj * screen_w / pixel_size / 8) (ii % 8)) m1) m)
      (buf + i / 8 + j * 12) (i % 8) = true
    refine foldl_range'_estab _
      (fun mm => get_bit mm (buf + i / 8 + j * 12) (i % 8) = true)
      ?_ j ?_ h y m hyj hjh
    · intro a kk hP
      exact foldl_range'_pres _ _ (fun b kk2 hb => set_bit_pres b _ _ _ _ hb) w x a hP
    · intro a
      refine foldl_range'_estab _
        (fun mm => get_bit mm (buf + i / 8 + j * 12) (i % 8) = true)
        (fun b kk2 hb => set_bit_pres b _ _ _ _ hb) i ?_ w x a hxi hiw
      intro b
      rw [show buf + i / 8 + j * 12 = buf + i / 8 + j * screen_w / pixel_size / 8 from by
        rw [yt_eq]]
      exact set_bit_get_self b _ _
  · intro m buf x y hx hy
    have hrect : rect m buf x y 1 1 =
        set_bit m (buf + x / 8 + y * screen_w / pixel_size / 8) (x % 8) := by
      simp [rect, generic_rect, List.range']
    have hclear : clear_rect m buf x y 1 1 =
        clear_bit m (buf + x / 8 + y * screen_w / pixel_size / 8) (x % 8) := by
      simp [clear_rect, generic_rect, List.range']
    constructor
    · simp [pxl_get, hrect, pxl_loc_eq, set_bit_get_self]
    · simp [pxl_get, hclear, pxl_loc_eq, clear_bit_get_self]

/-- C6 witness: the byte/bit mapping at `buf = 100`, rectangle
`(2,3)-(4,2)`, pixel `(5,4)`; and the 1x1 set/clear round trip at pixel
`(10,5)` of the buffer at 0. -/
theorem c6_witness :
    get_bit (rect memZero 100 2 3 4 2) (100 + 5 / 8 + 4 * 12) (5 % 8) = true ∧
    pxl_get (rect memZero 0 10 5 1 1) 0 10 5 = 1 ∧
    pxl_get (clear_rect memZero 0 10 5 1 1) 0 10 5 = 0 :=
  ⟨c6_rect_pixels.1 memZero 100 2 3 4 2 5 4 (by decide) (by decide) (by decide) (by decide),
   (c6_rect_pixels.2 memZero 0 10 5 (by decide) (by decide)).1,
   (c6_rect_pixels.2 memZero 0 10 5 (by decide) (by decide)).2⟩

/-- C3 (code bug): `shift_buffer_vertical` does not scroll by one pixel
row.  With only pixel `(0,0)` set, after a shift down pixel `(0,1)` is
still clear (the claim requires it to be set); with only pixel `(0,8)`
set, after a shift down pixel `(0,9)` is clear while pixel `(0,16)` is
set - the loop moves 96-byte chunks, i.e. 8 pixel rows, not 1, and never
writes the first two chunks' rows at all. -/
theorem c3_shift_bug :
    pxl_get memRow0 0 0 0 = 1 ∧
    pxl_get (shift_buffer_vertical memRow0 0 1) 0 0 1 = 0 ∧
    pxl_get memRow8 0 0 8 = 1 ∧
    pxl_get (shift_buffer_vertical memRow8 0 1) 0 0 9 = 0 ∧
    pxl_get (shift_buffer_vertical memRow8 0 1) 0 0 16 = 1 := by
  refine ⟨rfl, ?_, rfl, ?_, ?_⟩ <;> decide

end Axe
